import Mathlib

/-!
Verification of the user-registry REST service (`src/app.js`).

The service keeps an in-memory ordered list of user records and wires six
routes to operations on it.  We embed the data model and every route
handler as pure Lean functions over an explicit registry state and prove
the specified contracts about them.
-/

namespace App

/-- A user record: `{id, Firstname, Surname}` (field names as in the JS source). -/
structure User where
  id : String
  Firstname : String
  Surname : String
deriving DecidableEq, Repr

/-- The JSON value a handler sends back: a single record, the record list,
a one-field object such as `{home: "Home page"}` or `{error: msg}`,
or an empty body (`res.end()`). -/
inductive Body where
  | obj : User → Body
  | arr : List User → Body
  | kv : String → String → Body
  | empty : Body
deriving DecidableEq, Repr

/-- An HTTP response: status code plus JSON body. -/
structure Resp where
  status : Nat
  body : Body
deriving DecidableEq, Repr

/-- `{error: msg}` -/
def Body.err (msg : String) : Body := Body.kv "error" msg

/-- The seed registry the process starts with (`const users = [...]`). -/
def seedUsers : List User :=
  [⟨"1", "Jyri", "Kemppainen"⟩, ⟨"2", "Petri", "Laitinen"⟩]

/-- JavaScript truthiness of a possibly-absent string field: `!x` is `true`
exactly when the key is absent (`undefined`) or the value is `""`. -/
def falsy : Option String → Bool
  | none => true
  | some s => s == ""

/-- `GET /` -/
def getRoot : Resp := ⟨200, Body.kv "home" "Home page"⟩

/-- `GET /index` -/
def getIndex : Resp := ⟨200, Body.kv "hello" "Hello World!"⟩

/-- `GET /data`: `res.json(users)`. -/
def getData (users : List User) : Resp := ⟨200, Body.arr users⟩

/-- `GET /data/:id`: `users.find(u => u.id === userId)`, 200 with the record
or 404 `{error: "User not found"}`. -/
def getDataId (users : List User) (userId : String) : Resp :=
  match users.find? (fun u => u.id == userId) with
  | some u => ⟨200, Body.obj u⟩
  | none => ⟨404, Body.err "User not found"⟩

/-- A `POST /data` request: content-type header, the three recognized body
keys (each possibly absent), and the number of further keys in the body. -/
structure PostReq where
  contentType : Option String
  id : Option String
  Firstname : Option String
  Surname : Option String
  extraKeys : Nat
deriving DecidableEq, Repr

/-- `Object.keys(req.body).length` for a `PostReq`. -/
def PostReq.keyCount (r : PostReq) : Nat :=
  (if r.id.isSome then 1 else 0) + (if r.Firstname.isSome then 1 else 0) +
    (if r.Surname.isSome then 1 else 0) + r.extraKeys

/-- `POST /data` handler: content-type check, required-field check,
exact-key-count check, duplicate-id check, then append. -/
def postData (users : List User) (r : PostReq) : Resp × List User :=
  if r.contentType ≠ some "application/json" then
    (⟨415, Body.err "Unsupported Media Type. Content-Type must be application/json"⟩, users)
  else if falsy r.id || falsy r.Firstname || falsy r.Surname then
    (⟨400, Body.err "Missing required fields: id, Firstname, Surname"⟩, users)
  else if r.keyCount ≠ 3 then
    (⟨400, Body.err "Only id, Firstname, and Surname are allowed in the request body"⟩, users)
  else if users.any (fun u => u.id == r.id.getD "") then
    (⟨400, Body.err "User with this ID already exists"⟩, users)
  else
    let newUser : User := ⟨r.id.getD "", r.Firstname.getD "", r.Surname.getD ""⟩
    (⟨201, Body.obj newUser⟩, users ++ [newUser])

/-- `DELETE /user/:user_id` handler: `findIndex` then `splice(index, 1)`,
404 `{error: "user not found"}` when absent, 204 empty body when found. -/
def deleteUser (users : List User) (userId : String) : Resp × List User :=
  match users.findIdx? (fun u => u.id == userId) with
  | none => (⟨404, Body.err "user not found"⟩, users)
  | some i => (⟨204, Body.empty⟩, users.eraseIdx i)

/-- A `PUT /users/:user_id` request: content-type header and body keys.
The handler destructures only `Firstname` and `Surname`; a body-supplied
`id` key and any further keys are carried here but never read. -/
structure PutReq where
  contentType : Option String
  id : Option String
  Firstname : Option String
  Surname : Option String
  extraKeys : Nat
deriving DecidableEq, Repr

/-- `PUT /users/:user_id` handler: content-type check, required-field check,
then update in place (200) or append a new record (201); the stored and
returned id is always the path parameter `userId`. -/
def putUser (users : List User) (userId : String) (r : PutReq) : Resp × List User :=
  if r.contentType ≠ some "application/json" then
    (⟨415, Body.err "Unsupported Media Type. Content-Type must be application/json"⟩, users)
  else if falsy r.Firstname || falsy r.Surname then
    (⟨400, Body.err "Missing required fields: Firstname, Surname"⟩, users)
  else
    match users.findIdx? (fun u => u.id == userId) with
    | some i =>
      let updated : User := ⟨userId, r.Firstname.getD "", r.Surname.getD ""⟩
      (⟨200, Body.obj updated⟩, users.set i updated)
    | none =>
      let newUser : User := ⟨userId, r.Firstname.getD "", r.Surname.getD ""⟩
      (⟨201, Body.obj newUser⟩, users ++ [newUser])

/-- One incoming request to any of the six routes. -/
inductive Request where
  | getRoot : Request
  | getIndex : Request
  | getData : Request
  | getDataId : String → Request
  | postData : PostReq → Request
  | deleteUser : String → Request
  | putUser : String → PutReq → Request
deriving DecidableEq, Repr

/-- Dispatch a request to its handler, returning the response and the
registry afterwards. -/
def handle (users : List User) : Request → Resp × List User
  | .getRoot => (getRoot, users)
  | .getIndex => (getIndex, users)
  | .getData => (getData users, users)
  | .getDataId i => (getDataId users i, users)
  | .postData r => postData users r
  | .deleteUser i => deleteUser users i
  | .putUser i r => putUser users i r

/-- The registry after a sequence of requests has been handled. -/
def runRequests (users : List User) : List Request → List User
  | [] => users
  | r :: rs => runRequests (handle users r).2 rs

/-! ## Helper lemmas -/

/-- Decompose a list around the first element satisfying `p`, together with the
`findIdx?`, `eraseIdx` and `set` facts the handlers need. -/
theorem findIdx_decomp {α : Type} (p : α → Bool) (l : List α) (h : ∃ a ∈ l, p a = true) :
    ∃ pre a post, l = pre ++ a :: post ∧ p a = true ∧ (∀ b ∈ pre, p b = false) ∧
      l.findIdx? p = some pre.length ∧ l.eraseIdx pre.length = pre ++ post ∧
      ∀ x, l.set pre.length x = pre ++ x :: post := by
  induction l with
  | nil => simp at h
  | cons w rest ih =>
    by_cases hw : p w = true
    · exact ⟨[], w, rest, rfl, hw, by simp, by simp [List.findIdx?_cons, hw], by simp,
        fun x => by simp⟩
    · have h' : ∃ a ∈ rest, p a = true := by
        rcases h with ⟨a, ha, hpa⟩
        rcases List.mem_cons.mp ha with rfl | ha'
        · exact absurd hpa hw
        · exact ⟨a, ha', hpa⟩
      rcases ih h' with ⟨pre, a, post, hsplit, hpa, hpre, hfind, herase, hset⟩
      refine ⟨w :: pre, a, post, by simp [hsplit], hpa, ?_, ?_, ?_, ?_⟩
      · intro b hb
        rcases List.mem_cons.mp hb with rfl | hb'
        · exact eq_false_of_ne_true hw
        · exact hpre b hb'
      · simp [List.findIdx?_cons, hw, hfind]
      · simp [herase]
      · intro x
        simp [hset x]

/-- A present, non-empty string field is truthy. -/
theorem falsy_eq_false {o : Option String} {s : String}
    (ho : o = some s) (hne : s ≠ "") : falsy o = false := by
  subst ho
  simpa [falsy] using hne

/-! ## Claim theorems -/

/-- Claim C5: for every id present in the registry, `GET /data/:id` returns 200
with a matching record (and, under the at-most-one-record-per-id invariant,
exactly the matching record); for every absent id it returns 404 with body
`error: User not found`. -/
theorem getDataId_contract (users : List User) (uid : String) :
    ((∀ u ∈ users, u.id ≠ uid) → getDataId users uid = ⟨404, Body.err "User not found"⟩)
    ∧ ((∃ u ∈ users, u.id = uid) →
        ∃ u ∈ users, u.id = uid ∧ getDataId users uid = ⟨200, Body.obj u⟩)
    ∧ ((users.map User.id).Nodup →
        ∀ u ∈ users, u.id = uid → getDataId users uid = ⟨200, Body.obj u⟩) := by
  refine ⟨?_, ?_, ?_⟩
  · intro h
    have hf : users.find? (fun u => u.id == uid) = none := by
      rw [List.find?_eq_none]
      intro x hx
      simp [h x hx]
    simp [getDataId, hf]
  · intro h
    have hs : (users.find? (fun u => u.id == uid)).isSome := by
      rw [List.find?_isSome]
      rcases h with ⟨u, hu, hid⟩
      exact ⟨u, hu, by simp [hid]⟩
    cases hfind : users.find? (fun u => u.id == uid) with
    | none => rw [hfind] at hs; simp at hs
    | some w =>
      have hw : w ∈ users := List.mem_of_find?_eq_some hfind
      have hwid : w.id = uid := by simpa using List.find?_some hfind
      exact ⟨w, hw, hwid, by simp [getDataId, hfind]⟩
  · intro hn u hu hid
    have hs : (users.find? (fun u => u.id == uid)).isSome := by
      rw [List.find?_isSome]
      exact ⟨u, hu, by simp [hid]⟩
    cases hfind : users.find? (fun u => u.id == uid) with
    | none => rw [hfind] at hs; simp at hs
    | some w =>
      have hw : w ∈ users := List.mem_of_find?_eq_some hfind
      have hwid : w.id = uid := by simpa using List.find?_some hfind
      have : w = u := List.inj_on_of_nodup_map hn hw hu (by rw [hwid, hid])
      subst this
      simp [getDataId, hfind]

/-- Witness for C5 at concrete inputs: id "1" is found in the seed registry, id
"9" is not. -/
theorem getDataId_contract_witness :
    getDataId seedUsers "1" = ⟨200, Body.obj ⟨"1", "Jyri", "Kemppainen"⟩⟩ ∧
    getDataId seedUsers "9" = ⟨404, Body.err "User not found"⟩ :=
  ⟨(getDataId_contract seedUsers "1").2.2 (by decide) ⟨"1", "Jyri", "Kemppainen"⟩
      (by decide) rfl,
   (getDataId_contract seedUsers "9").1 (by decide)⟩

/-- The request of the spec's concrete POST scenario. -/
def mariaReq : PostReq := ⟨some "application/json", some "3", some "Maria", some "Virtanen", 0⟩

/-- Claim C8: `GET /data` returns 200 with the full registry in order, a
successful `POST /data` appends its record at the end, and the spec's concrete
scenario from the seed state holds. -/
theorem getData_list_post_appends (users : List User) (r : PostReq) :
    getData users = ⟨200, Body.arr users⟩
    ∧ ((postData users r).1.status = 201 →
        (postData users r).2 =
          users ++ [⟨r.id.getD "", r.Firstname.getD "", r.Surname.getD ""⟩] ∧
        (postData users r).1.body =
          Body.obj ⟨r.id.getD "", r.Firstname.getD "", r.Surname.getD ""⟩)
    ∧ postData seedUsers mariaReq =
        (⟨201, Body.obj ⟨"3", "Maria", "Virtanen"⟩⟩, seedUsers ++ [⟨"3", "Maria", "Virtanen"⟩])
    ∧ getData (seedUsers ++ [⟨"3", "Maria", "Virtanen"⟩]) =
        ⟨200, Body.arr [⟨"1", "Jyri", "Kemppainen"⟩, ⟨"2", "Petri", "Laitinen"⟩,
          ⟨"3", "Maria", "Virtanen"⟩]⟩ := by
  refine ⟨rfl, ?_, by decide, by decide⟩
  intro h
  by_cases h1 : r.contentType = some "application/json"
  · by_cases h2 : (falsy r.id || falsy r.Firstname || falsy r.Surname) = true
    · simp [postData, h1, h2] at h
    · by_cases h3 : r.keyCount = 3
      · by_cases h4 : users.any (fun u => u.id == r.id.getD "") = true
        · simp [postData, h1, h2, h3, h4] at h
        · exact ⟨by simp [postData, h1, h2, h3, h4], by simp [postData, h1, h2, h3, h4]⟩
      · simp [postData, h1, h2, h3] at h
  · simp [postData, h1] at h

/-- Witness for C8: the spec's concrete POST appends Maria at the end of the
seed registry. -/
theorem getData_list_post_appends_witness :
    (postData seedUsers mariaReq).2 = seedUsers ++ [⟨"3", "Maria", "Virtanen"⟩] ∧
    (postData seedUsers mariaReq).1.body = Body.obj ⟨"3", "Maria", "Virtanen"⟩ :=
  (getData_list_post_appends seedUsers mariaReq).2.1 (by decide)

/-- Claim C2: a `POST /data` with JSON content-type, all three required fields
present and non-empty, exactly three body keys, and a duplicate id is rejected
with 400 and leaves the registry exactly unchanged. -/
theorem post_duplicate_rejected (users : List User) (r : PostReq)
    (hct : r.contentType = some "application/json")
    (hid : ∃ s, r.id = some s ∧ s ≠ "")
    (hfn : ∃ s, r.Firstname = some s ∧ s ≠ "")
    (hsn : ∃ s, r.Surname = some s ∧ s ≠ "")
    (hkeys : r.keyCount = 3)
    (hdup : ∃ u ∈ users, u.id = r.id.getD "") :
    postData users r = (⟨400, Body.err "User with this ID already exists"⟩, users) := by
  obtain ⟨s₁, hs₁, hne₁⟩ := hid
  obtain ⟨s₂, hs₂, hne₂⟩ := hfn
  obtain ⟨s₃, hs₃, hne₃⟩ := hsn
  have hany : users.any (fun u => u.id == r.id.getD "") = true := by
    rw [List.any_eq_true]
    rcases hdup with ⟨u, hu, huid⟩
    exact ⟨u, hu, by simp [huid]⟩
  simp [postData, hct, falsy_eq_false hs₁ hne₁, falsy_eq_false hs₂ hne₂,
    falsy_eq_false hs₃ hne₃, hkeys, hany]

/-- Witness for C2: posting id "1" (already in the seed registry) with valid
fields is rejected and the registry is unchanged. -/
theorem post_duplicate_rejected_witness :
    postData seedUsers ⟨some "application/json", some "1", some "Ada", some "Lovelace", 0⟩ =
      (⟨400, Body.err "User with this ID already exists"⟩, seedUsers) :=
  post_duplicate_rejected seedUsers _ rfl ⟨"1", rfl, by decide⟩ ⟨"Ada", rfl, by decide⟩
    ⟨"Lovelace", rfl, by decide⟩ (by decide) ⟨⟨"1", "Jyri", "Kemppainen"⟩, by decide, by decide⟩

/-- Claim C3: a `POST /data` with JSON content-type, the three recognized keys
present and non-empty, and at least one additional key is rejected with 400;
equivalently a 201 create requires exactly three body keys. -/
theorem post_extra_field_rejected (users : List User) (r : PostReq)
    (hct : r.contentType = some "application/json")
    (hid : ∃ s, r.id = some s ∧ s ≠ "")
    (hfn : ∃ s, r.Firstname = some s ∧ s ≠ "")
    (hsn : ∃ s, r.Surname = some s ∧ s ≠ "")
    (hextra : 1 ≤ r.extraKeys) :
    postData users r =
      (⟨400, Body.err "Only id, Firstname, and Surname are allowed in the request body"⟩, users)
    ∧ ∀ (users₂ : List User) (r₂ : PostReq),
        (postData users₂ r₂).1.status = 201 → r₂.keyCount = 3 := by
  obtain ⟨s₁, hs₁, hne₁⟩ := hid
  obtain ⟨s₂, hs₂, hne₂⟩ := hfn
  obtain ⟨s₃, hs₃, hne₃⟩ := hsn
  constructor
  · have hkc : r.keyCount ≠ 3 := by
      simp [PostReq.keyCount, hs₁, hs₂, hs₃]
      omega
    simp [postData, hct, falsy_eq_false hs₁ hne₁, falsy_eq_false hs₂ hne₂,
      falsy_eq_false hs₃ hne₃, hkc]
  · intro users₂ r₂ h
    by_cases h1 : r₂.contentType = some "application/json"
    · by_cases h2 : (falsy r₂.id || falsy r₂.Firstname || falsy r₂.Surname) = true
      · simp [postData, h1, h2] at h
      · by_cases h3 : r₂.keyCount = 3
        · exact h3
        · simp [postData, h1, h2, h3] at h
    · simp [postData, h1] at h

/-- Witness for C3: a valid body plus one extra key is rejected. -/
theorem post_extra_field_rejected_witness :
    postData seedUsers ⟨some "application/json", some "4", some "Extra", some "Key", 1⟩ =
      (⟨400, Body.err "Only id, Firstname, and Surname are allowed in the request body"⟩,
        seedUsers) :=
  (post_extra_field_rejected seedUsers _ rfl ⟨"4", rfl, by decide⟩ ⟨"Extra", rfl, by decide⟩
    ⟨"Key", rfl, by decide⟩ (by decide)).1

/-- Claim C4: validation order for POST and PUT — a wrong content-type yields
415 no matter what else is wrong, and with JSON content-type a missing required
field yields the missing-fields 400 no matter what duplicate or extra-key
problems also exist. -/
theorem validation_order (users : List User) (r : PostReq) (uid : String) (q : PutReq) :
    (r.contentType ≠ some "application/json" →
      postData users r =
        (⟨415, Body.err "Unsupported Media Type. Content-Type must be application/json"⟩, users))
    ∧ (r.contentType = some "application/json" →
        (falsy r.id || falsy r.Firstname || falsy r.Surname) = true →
        postData users r =
          (⟨400, Body.err "Missing required fields: id, Firstname, Surname"⟩, users))
    ∧ (q.contentType ≠ some "application/json" →
        putUser users uid q =
          (⟨415, Body.err "Unsupported Media Type. Content-Type must be application/json"⟩, users))
    ∧ (q.contentType = some "application/json" →
        (falsy q.Firstname || falsy q.Surname) = true →
        putUser users uid q =
          (⟨400, Body.err "Missing required fields: Firstname, Surname"⟩, users)) := by
  refine ⟨?_, ?_, ?_, ?_⟩
  · intro h1
    simp [postData, h1]
  · intro h1 h2
    simp [postData, h1, h2]
  · intro h1
    simp [putUser, h1]
  · intro h1 h2
    simp [putUser, h1, h2]

/-- Witness for C4: a POST with wrong content-type and missing fields gets 415,
and a POST with JSON content-type, a missing field and a duplicate id gets the
missing-fields 400. -/
theorem validation_order_witness :
    postData seedUsers ⟨some "text/plain", none, none, none, 0⟩ =
      (⟨415, Body.err "Unsupported Media Type. Content-Type must be application/json"⟩,
        seedUsers) ∧
    postData seedUsers ⟨some "application/json", some "1", none, none, 0⟩ =
      (⟨400, Body.err "Missing required fields: id, Firstname, Surname"⟩, seedUsers) :=
  ⟨(validation_order seedUsers ⟨some "text/plain", none, none, none, 0⟩ ""
      ⟨none, none, none, none, 0⟩).1 (by decide),
   (validation_order seedUsers ⟨some "application/json", some "1", none, none, 0⟩ ""
      ⟨none, none, none, none, 0⟩).2.1 rfl (by decide)⟩

/-- Claim C10: empty strings are treated as missing — a POST whose id,
Firstname or Surname is present but empty, and a PUT whose Firstname or Surname
is present but empty, get the missing-required-fields 400 and leave the
registry unchanged. -/
theorem empty_string_fields_rejected (users : List User) (uid : String)
    (r : PostReq) (q : PutReq) :
    (r.contentType = some "application/json" →
      (r.id = some "" ∨ r.Firstname = some "" ∨ r.Surname = some "") →
      postData users r =
        (⟨400, Body.err "Missing required fields: id, Firstname, Surname"⟩, users))
    ∧ (q.contentType = some "application/json" →
        (q.Firstname = some "" ∨ q.Surname = some "") →
        putUser users uid q =
          (⟨400, Body.err "Missing required fields: Firstname, Surname"⟩, users)) := by
  constructor
  · intro hct hempty
    have h2 : (falsy r.id || falsy r.Firstname || falsy r.Surname) = true := by
      rcases hempty with h | h | h <;> simp [falsy, h]
    simp [postData, hct, h2]
  · intro hct hempty
    have h2 : (falsy q.Firstname || falsy q.Surname) = true := by
      rcases hempty with h | h <;> simp [falsy, h]
    simp [putUser, hct, h2]

/-- Witness for C10: a POST with an empty Firstname and a PUT with an empty
Surname are both rejected with the missing-fields 400. -/
theorem empty_string_fields_rejected_witness :
    postData seedUsers ⟨some "application/json", some "5", some "", some "Smith", 0⟩ =
      (⟨400, Body.err "Missing required fields: id, Firstname, Surname"⟩, seedUsers) ∧
    putUser seedUsers "1" ⟨some "application/json", none, some "John", some "", 0⟩ =
      (⟨400, Body.err "Missing required fields: Firstname, Surname"⟩, seedUsers) :=
  ⟨(empty_string_fields_rejected seedUsers "1"
      ⟨some "application/json", some "5", some "", some "Smith", 0⟩
      ⟨some "application/json", none, some "John", some "", 0⟩).1 rfl (Or.inr (Or.inl rfl)),
   (empty_string_fields_rejected seedUsers "1"
      ⟨some "application/json", some "5", some "", some "Smith", 0⟩
      ⟨some "application/json", none, some "John", some "", 0⟩).2 rfl (Or.inr rfl)⟩

/-- Claim C9: a successful `DELETE /user/:user_id` removes exactly the first
record whose id matches the path parameter; every other record is unchanged and
keeps its relative order. -/
theorem delete_frame (users : List User) (uid : String)
    (h : ∃ u ∈ users, u.id = uid) :
    ∃ pre u post, users = pre ++ u :: post ∧ u.id = uid ∧ (∀ v ∈ pre, v.id ≠ uid) ∧
      deleteUser users uid = (⟨204, Body.empty⟩, pre ++ post) := by
  obtain ⟨pre, u, post, hsplit, hp, hpre, hfind, herase, hset⟩ :=
    findIdx_decomp (fun v => v.id == uid) users
      (by rcases h with ⟨u, hu, hid⟩; exact ⟨u, hu, by simp [hid]⟩)
  refine ⟨pre, u, post, hsplit, by simpa using hp, ?_, ?_⟩
  · intro v hv
    simpa using hpre v hv
  · simp [deleteUser, hfind, herase]

/-- Witness for C9: deleting id "2" from the seed registry removes exactly the
second record. -/
theorem delete_frame_witness :
    ∃ pre u post, seedUsers = pre ++ u :: post ∧ u.id = "2" ∧ (∀ v ∈ pre, v.id ≠ "2") ∧
      deleteUser seedUsers "2" = (⟨204, Body.empty⟩, pre ++ post) :=
  delete_frame seedUsers "2" ⟨⟨"2", "Petri", "Laitinen"⟩, by decide, rfl⟩

/-- Claim C6: `DELETE /user/:user_id` returns 404 with body `error: user not
found` and changes nothing when no record matches; when a record matches it
removes it, returns 204 with an empty body, and (under the
at-most-one-record-per-id invariant) a subsequent `GET /data/:id` for the same
id returns 404. -/
theorem delete_contract (users : List User) (uid : String) :
    ((∀ u ∈ users, u.id ≠ uid) →
      deleteUser users uid = (⟨404, Body.err "user not found"⟩, users))
    ∧ ((∃ u ∈ users, u.id = uid) →
        ∃ pre u post, users = pre ++ u :: post ∧ u.id = uid ∧
          deleteUser users uid = (⟨204, Body.empty⟩, pre ++ post))
    ∧ ((users.map User.id).Nodup → (∃ u ∈ users, u.id = uid) →
        getDataId (deleteUser users uid).2 uid = ⟨404, Body.err "User not found"⟩) := by
  refine ⟨?_, ?_, ?_⟩
  · intro h
    have hfind : users.findIdx? (fun u => u.id == uid) = none := by
      rw [List.findIdx?_eq_none_iff]
      intro x hx
      simp [h x hx]
    simp [deleteUser, hfind]
  · intro h
    obtain ⟨pre, u, post, hsplit, hp, hpre, hfind, herase, hset⟩ :=
      findIdx_decomp (fun v => v.id == uid) users
        (by rcases h with ⟨u, hu, hid⟩; exact ⟨u, hu, by simp [hid]⟩)
    exact ⟨pre, u, post, hsplit, by simpa using hp, by simp [deleteUser, hfind, herase]⟩
  · intro hn h
    obtain ⟨pre, u, post, hsplit, hp, hpre, hfind, herase, hset⟩ :=
      findIdx_decomp (fun v => v.id == uid) users
        (by rcases h with ⟨u, hu, hid⟩; exact ⟨u, hu, by simp [hid]⟩)
    have huid : u.id = uid := by simpa using hp
    have hdel : (deleteUser users uid).2 = pre ++ post := by
      simp [deleteUser, hfind, herase]
    rw [hdel]
    rw [hsplit] at hn
    have hn' : (pre.map User.id ++ u.id :: post.map User.id).Nodup := by
      simpa using hn
    have hnotmem : u.id ∉ pre.map User.id ++ post.map User.id :=
      (List.nodup_cons.mp (List.nodup_middle.mp hn')).1
    have hnone : (pre ++ post).find? (fun v => v.id == uid) = none := by
      rw [List.find?_eq_none]
      intro v hv hbv
      apply hnotmem
      have hveq : v.id = uid := by simpa using hbv
      rw [huid, ← hveq]
      rcases List.mem_append.mp hv with hv' | hv'
      · exact List.mem_append.mpr (Or.inl (List.mem_map_of_mem _ hv'))
      · exact List.mem_append.mpr (Or.inr (List.mem_map_of_mem _ hv'))
    simp [getDataId, hnone]

/-- Witness for C6: deleting an absent id answers 404 and deleting id "2" makes
a subsequent lookup of "2" answer 404. -/
theorem delete_contract_witness :
    deleteUser seedUsers "9" = (⟨404, Body.err "user not found"⟩, seedUsers) ∧
    getDataId (deleteUser seedUsers "2").2 "2" = ⟨404, Body.err "User not found"⟩ :=
  ⟨(delete_contract seedUsers "9").1 (by decide),
   (delete_contract seedUsers "2").2.2 (by decide) ⟨⟨"2", "Petri", "Laitinen"⟩, by decide, rfl⟩⟩

/-- Claim C1: for a `PUT /users/:user_id` with JSON content-type and non-empty
Firstname and Surname: an existing id is updated in place with 200, a fresh id
is appended with 201 and afterwards reachable via `GET /data/:id`, the id in
the response body is always the path parameter (the body-supplied id field is
never used), and no PUT request, valid or not, ever answers 404. -/
theorem put_upsert_contract (users : List User) (uid : String) (r : PutReq)
    (hct : r.contentType = some "application/json")
    (hfn : ∃ s, r.Firstname = some s ∧ s ≠ "")
    (hsn : ∃ s, r.Surname = some s ∧ s ≠ "") :
    ((∃ u ∈ users, u.id = uid) →
      ∃ pre u post, users = pre ++ u :: post ∧ u.id = uid ∧
        putUser users uid r =
          (⟨200, Body.obj ⟨uid, r.Firstname.getD "", r.Surname.getD ""⟩⟩,
            pre ++ ⟨uid, r.Firstname.getD "", r.Surname.getD ""⟩ :: post))
    ∧ ((∀ u ∈ users, u.id ≠ uid) →
        putUser users uid r =
          (⟨201, Body.obj ⟨uid, r.Firstname.getD "", r.Surname.getD ""⟩⟩,
            users ++ [⟨uid, r.Firstname.getD "", r.Surname.getD ""⟩]) ∧
        getDataId (putUser users uid r).2 uid =
          ⟨200, Body.obj ⟨uid, r.Firstname.getD "", r.Surname.getD ""⟩⟩)
    ∧ (putUser users uid r).1.body = Body.obj ⟨uid, r.Firstname.getD "", r.Surname.getD ""⟩
    ∧ ∀ (users₂ : List User) (uid₂ : String) (r₂ : PutReq),
        (putUser users₂ uid₂ r₂).1.status ≠ 404 := by
  obtain ⟨s₂, hs₂, hne₂⟩ := hfn
  obtain ⟨s₃, hs₃, hne₃⟩ := hsn
  have hf2 := falsy_eq_false hs₂ hne₂
  have hf3 := falsy_eq_false hs₃ hne₃
  refine ⟨?_, ?_, ?_, ?_⟩
  · intro h
    obtain ⟨pre, u, post, hsplit, hp, hpre, hfind, herase, hset⟩ :=
      findIdx_decomp (fun v => v.id == uid) users
        (by rcases h with ⟨u, hu, hid⟩; exact ⟨u, hu, by simp [hid]⟩)
    refine ⟨pre, u, post, hsplit, by simpa using hp, ?_⟩
    simp [putUser, hct, hf2, hf3, hfind, hset]
  · intro h
    have hfind : users.findIdx? (fun u => u.id == uid) = none := by
      rw [List.findIdx?_eq_none_iff]
      intro x hx
      simp [h x hx]
    have hput : putUser users uid r =
        (⟨201, Body.obj ⟨uid, r.Firstname.getD "", r.Surname.getD ""⟩⟩,
          users ++ [⟨uid, r.Firstname.getD "", r.Surname.getD ""⟩]) := by
      simp [putUser, hct, hf2, hf3, hfind]
    refine ⟨hput, ?_⟩
    rw [hput]
    have hnone : users.find? (fun v => v.id == uid) = none := by
      rw [List.find?_eq_none]
      intro x hx
      simp [h x hx]
    simp [getDataId, List.find?_append, hnone]
  · cases hfind : users.findIdx? (fun u => u.id == uid) with
    | none => simp [putUser, hct, hf2, hf3, hfind]
    | some i => simp [putUser, hct, hf2, hf3, hfind]
  · intro users₂ uid₂ r₂
    by_cases h1 : r₂.contentType = some "application/json"
    · by_cases h2 : (falsy r₂.Firstname || falsy r₂.Surname) = true
      · simp [putUser, h1, h2]
      · cases hfind : users₂.findIdx? (fun u => u.id == uid₂) with
        | none => simp [putUser, h1, h2, hfind]
        | some i => simp [putUser, h1, h2, hfind]
    · simp [putUser, h1]

/-- The request of the spec's concrete PUT scenario; its body also carries an
id field ("999") that the handler must ignore. -/
def louvreReq : PutReq := ⟨some "application/json", some "999", some "Louvre", some "Museum", 0⟩

/-- Witness for C1: updating existing id "1" answers with the path id, never
the body id "999", and putting fresh id "3" creates and appends the record. -/
theorem put_upsert_contract_witness :
    (putUser seedUsers "1" louvreReq).1.body = Body.obj ⟨"1", "Louvre", "Museum"⟩ ∧
    putUser seedUsers "3" louvreReq =
      (⟨201, Body.obj ⟨"3", "Louvre", "Museum"⟩⟩, seedUsers ++ [⟨"3", "Louvre", "Museum"⟩]) :=
  ⟨(put_upsert_contract seedUsers "1" louvreReq rfl ⟨"Louvre", rfl, by decide⟩
      ⟨"Museum", rfl, by decide⟩).2.2.1,
   ((put_upsert_contract seedUsers "3" louvreReq rfl ⟨"Louvre", rfl, by decide⟩
      ⟨"Museum", rfl, by decide⟩).2.1 (by decide)).1⟩

/-- `POST /data` preserves distinctness of the registry ids. -/
theorem postData_nodup {users : List User} {r : PostReq}
    (hn : (users.map User.id).Nodup) : (((postData users r).2).map User.id).Nodup := by
  by_cases h1 : r.contentType = some "application/json"
  · by_cases h2 : (falsy r.id || falsy r.Firstname || falsy r.Surname) = true
    · simpa [postData, h1, h2] using hn
    · by_cases h3 : r.keyCount = 3
      · by_cases h4 : users.any (fun u => u.id == r.id.getD "") = true
        · simpa [postData, h1, h2, h3, h4] using hn
        · have hnm : r.id.getD "" ∉ users.map User.id := by
            intro hmem
            obtain ⟨u, hu, huid⟩ := List.mem_map.mp hmem
            apply h4
            rw [List.any_eq_true]
            exact ⟨u, hu, by simp [huid]⟩
          have hpost : (postData users r).2 =
              users ++ [⟨r.id.getD "", r.Firstname.getD "", r.Surname.getD ""⟩] := by
            simp [postData, h1, h2, h3, h4]
          rw [hpost, List.map_append, List.nodup_append]
          refine ⟨hn, by simp, ?_⟩
          intro a ha hb
          simp at hb
          rw [hb] at ha
          exact hnm ha
      · simpa [postData, h1, h2, h3] using hn
  · simpa [postData, h1] using hn

/-- `DELETE /user/:user_id` preserves distinctness of the registry ids. -/
theorem deleteUser_nodup {users : List User} {uid : String}
    (hn : (users.map User.id).Nodup) : (((deleteUser users uid).2).map User.id).Nodup := by
  cases hfind : users.findIdx? (fun u => u.id == uid) with
  | none => simpa [deleteUser, hfind] using hn
  | some i =>
    have hdel : (deleteUser users uid).2 = users.eraseIdx i := by
      simp [deleteUser, hfind]
    rw [hdel]
    exact List.Nodup.sublist ((users.eraseIdx_sublist i).map User.id) hn

/-- `PUT /users/:user_id` preserves distinctness of the registry ids. -/
theorem putUser_nodup {users : List User} {uid : String} {r : PutReq}
    (hn : (users.map User.id).Nodup) : (((putUser users uid r).2).map User.id).Nodup := by
  by_cases h1 : r.contentType = some "application/json"
  · by_cases h2 : (falsy r.Firstname || falsy r.Surname) = true
    · simpa [putUser, h1, h2] using hn
    · cases hfind : users.findIdx? (fun u => u.id == uid) with
      | none =>
        have hno := List.findIdx?_eq_none_iff.mp hfind
        have hnm : uid ∉ users.map User.id := by
          intro hmem
          obtain ⟨u, hu, huid⟩ := List.mem_map.mp hmem
          have := hno u hu
          simp [huid] at this
        have hput : (putUser users uid r).2 =
            users ++ [⟨uid, r.Firstname.getD "", r.Surname.getD ""⟩] := by
          simp [putUser, h1, h2, hfind]
        rw [hput, List.map_append, List.nodup_append]
        refine ⟨hn, by simp, ?_⟩
        intro a ha hb
        simp at hb
        rw [hb] at ha
        exact hnm ha
      | some i =>
        have hex : ∃ u ∈ users, (u.id == uid) = true := by
          have hb := @List.findIdx?_isSome User users (fun u => u.id == uid)
          rw [hfind] at hb
          exact List.any_eq_true.mp hb.symm
        obtain ⟨pre, u, post, hsplit, hp, hpre, hfind', herase, hset⟩ :=
          findIdx_decomp (fun v => v.id == uid) users hex
        have hi : i = pre.length := by
          rw [hfind] at hfind'
          exact Option.some.inj hfind'
        subst hi
        have hput : (putUser users uid r).2 =
            pre ++ ⟨uid, r.Firstname.getD "", r.Surname.getD ""⟩ :: post := by
          simp [putUser, h1, h2, hfind, hset]
        have huid : u.id = uid := by simpa using hp
        rw [hput]
        rw [hsplit] at hn
        simpa [huid] using hn
  · simpa [putUser, h1] using hn

/-- Every handled request preserves distinctness of the registry ids. -/
theorem handle_nodup {users : List User} (hn : (users.map User.id).Nodup) :
    ∀ req : Request, (((handle users req).2).map User.id).Nodup
  | .getRoot => hn
  | .getIndex => hn
  | .getData => hn
  | .getDataId _ => hn
  | .postData _ => postData_nodup hn
  | .deleteUser _ => deleteUser_nodup hn
  | .putUser _ _ => putUser_nodup hn

/-- Distinctness of the registry ids is preserved by any request sequence. -/
theorem runRequests_nodup (rs : List Request) :
    ∀ users : List User, (users.map User.id).Nodup →
      ((runRequests users rs).map User.id).Nodup := by
  induction rs with
  | nil => intro users hn; simpa [runRequests] using hn
  | cons req rs ih => intro users hn; exact ih _ (handle_nodup hn req)

/-- Claim C7: starting from the seed registry, after any sequence of handled
requests the registry contains at most one record per id value. -/
theorem registry_ids_unique (rs : List Request) :
    ((runRequests seedUsers rs).map User.id).Nodup :=
  runRequests_nodup rs seedUsers (by decide)

end App
